import Mathlib

/-!
Shallow embedding of
`src/vs/workbench/contrib/notebook/browser/contrib/notebookVariables/notebookVariablesDataSource.ts`.

The TypeScript class `NotebookVariableDataSource` exposes `hasChildren`,
`getChildren` and `cancel` over a tree of notebook variables.  Provider
queries (`INotebookKernel.provideVariables`) are asynchronous; here each
fetch is embedded as a pure function that returns, besides the produced
child nodes, the list of provider queries it issued (each recording the
cancellation token it carried and how many sequence elements were pulled
from the lazily produced result sequence) and the final cancellation
state.  The mutable `cancellationTokenSource` field of the class is
embedded as an explicit `CancellationState` threaded through the
computation; the one scheduling choice visible to this component — the
host invoking `cancel()` while a fetch is suspended on the await of the
named-children query — is a `Bool` parameter (`cancelMid`).
-/

set_option autoImplicit false

/-- The owning notebook document (`NotebookTextModel`); only its `uri` is
consulted by this data source. -/
structure NotebookTextModel where
  uri : String
deriving DecidableEq

/-- Modelled from the spec: the provider result shape
`{handle, name, value, type?, indexedChildrenCount, hasNamedChildren}`
(`VariablesResult` lives in `notebookKernelService.ts`, outside the
embedded file; the handle is the `id` field, see `createVariableElement`
which reads `variable.id`). -/
structure VariablesResult where
  id : Nat
  name : String
  value : String
  type? : Option String
  indexedChildrenCount : Nat
  hasNamedChildren : Bool
deriving DecidableEq

/-- Interface `INotebookVariableElement` from the source (the `kind : 'variable'`
discriminant is carried by the `NotebookElement` sum type below). -/
structure INotebookVariableElement where
  id : String
  extHostId : Nat
  name : String
  value : String
  type? : Option String
  indexedChildrenCount : Nat
  indexStart : Option Nat
  hasNamedChildren : Bool
  notebook : NotebookTextModel
deriving DecidableEq

/-- The tagged union `INotebookScope | INotebookVariableElement` the data
source methods take: `kind === 'root'` is `root`, `kind === 'variable'`
is `variableNode`. -/
inductive NotebookElement where
  | root (notebook : NotebookTextModel)
  | variableNode (v : INotebookVariableElement)
deriving DecidableEq

/-- The notebook a tree element belongs to (`element.notebook`). -/
def elementNotebook : NotebookElement → NotebookTextModel
  | .root notebook => notebook
  | .variableNode v => v.notebook

/-- The mode argument of `provideVariables`: `'named' | 'indexed'`. -/
inductive QueryMode where
  | named
  | indexed
deriving DecidableEq

/-- Modelled from the spec: `variablePageSize` is declared in
`notebookKernelService.ts`, outside the embedded file; the spec fixes it
as "a fixed page size constant P" with value 100 in its worked example.
The fetch functions below take the page size as an explicit parameter
`P`, instantiated with this constant by the running program. -/
def variablePageSize : Nat := 100

/-- State of the `cancellationTokenSource` field together with the
history of revoked tokens: `current` is the token of the live
`CancellationTokenSource`, `revoked` lists the tokens of sources that
`cancel()` has cancelled and disposed, `nextId` is the token the next
`new CancellationTokenSource()` will produce. -/
structure CancellationState where
  current : Nat
  nextId : Nat
  revoked : List Nat
deriving DecidableEq

/-- The state installed by the constructor: one fresh live source. -/
def CancellationState.initial : CancellationState :=
  { current := 0, nextId := 1, revoked := [] }

/-- Method `cancel()`: cancel the current source, dispose it, and install a
brand-new `CancellationTokenSource`. -/
def cancel (s : CancellationState) : CancellationState :=
  { current := s.nextId, nextId := s.nextId + 1, revoked := s.current :: s.revoked }

/-- Whether token `t` has been revoked (its source was cancelled). -/
def isRevoked (s : CancellationState) (t : Nat) : Bool :=
  s.revoked.contains t

/-- Invariant of reachable cancellation states: the live token is not
revoked and all issued tokens are below `nextId`. -/
def CancellationInv (s : CancellationState) : Prop :=
  s.current ∉ s.revoked ∧ s.current < s.nextId ∧ ∀ t ∈ s.revoked, t < s.nextId

/-- One call to `kernel.provideVariables(...)` as issued by the data
source: its arguments, the cancellation token it carried, and how many
elements of the resulting lazy sequence were actually pulled. -/
structure ProviderQuery where
  uri : String
  handle : Option Nat
  mode : QueryMode
  startOffset : Nat
  token : Nat
  elementsPulled : Nat
deriving DecidableEq

/-- The selected kernel (`getMatchingKernel(notebook).selected`): its
`hasVariableProvider` flag and its `provideVariables` operation, embedded
as a function from the query arguments to the finite sequence of results
it lazily produces.  The cancellation token is recorded on the issued
`ProviderQuery` instead of being a function argument: the provider is
modelled as not failing, which is the hypothesis under which the
cancellation claims speak. -/
structure INotebookKernel where
  hasVariableProvider : Bool
  provideVariables : String → Option Nat → QueryMode → Nat → List VariablesResult

/-- Method `createVariableElement`: spread the provider result, set the
discriminant, attach the notebook, keep the numeric handle as
`extHostId` and stringify it as `id`.  `VariablesResult` has no
`indexStart` field, so the spread leaves it absent. -/
def createVariableElement (v : VariablesResult) (notebook : NotebookTextModel) :
    INotebookVariableElement :=
  { id := toString v.id
    extHostId := v.id
    name := v.name
    value := v.value
    type? := v.type?
    indexedChildrenCount := v.indexedChildrenCount
    indexStart := none
    hasNamedChildren := v.hasNamedChildren
    notebook := notebook }

/-- The object literal pushed for one block `[start, stop)` in the
range-splitting branch of `getIndexedChildren`. -/
def mkRangeNode (parent : INotebookVariableElement) (start stop : Nat) :
    INotebookVariableElement :=
  { id := parent.id ++ toString start
    extHostId := parent.extHostId
    name := "[" ++ toString start ++ ".." ++ toString (stop - 1) ++ "]"
    value := ""
    type? := none
    indexedChildrenCount := stop - start
    indexStart := some start
    hasNamedChildren := false
    notebook := parent.notebook }

/-- The `for (let start = 0; start < parent.indexedChildrenCount; start
+= variablePageSize)` loop of `getIndexedChildren`, with an explicit
structural fuel: each iteration advances `start` by `P ≥ 1`, so
`parent.indexedChildrenCount` iterations always suffice (the wrapper
`synthesizeRanges` supplies exactly that fuel). -/
def synthesizeRangesLoop (P : Nat) (parent : INotebookVariableElement) :
    Nat → Nat → List INotebookVariableElement
  | 0, _ => []
  | fuel + 1, start =>
    if start < parent.indexedChildrenCount then
      let stop :=
        if parent.indexedChildrenCount < start + P then parent.indexedChildrenCount
        else start + P
      mkRangeNode parent start stop :: synthesizeRangesLoop P parent fuel (start + P)
    else []

/-- The full range-splitting loop, from `start = 0`. -/
def synthesizeRanges (P : Nat) (parent : INotebookVariableElement) :
    List INotebookVariableElement :=
  synthesizeRangesLoop P parent parent.indexedChildrenCount 0

/-- The `for await (const variable of variables)` loop of
`getIndexedChildren`: wrap each pulled element, stop as soon as
`childNodes.length >= P`.  Returns the collected nodes and the number of
sequence elements pulled. -/
def consumeIndexedLoop (P : Nat) (notebook : NotebookTextModel)
    (acc : List INotebookVariableElement) :
    List VariablesResult → List INotebookVariableElement × Nat
  | [] => (acc, 0)
  | v :: rest =>
    let acc2 := acc ++ [createVariableElement v notebook]
    if P ≤ acc2.length then (acc2, 1)
    else
      let r := consumeIndexedLoop P notebook acc2 rest
      (r.1, r.2 + 1)

/-- Method `getIndexedChildren(parent, kernel)`: split into range nodes without
querying when the count exceeds the page size, otherwise issue one
indexed-mode query at `parent.indexStart ?? 0` (carrying the token
current at that moment) and consume at most `P` elements. -/
def getIndexedChildrenM (P : Nat) (kernel : INotebookKernel)
    (parent : INotebookVariableElement) (s : CancellationState) :
    List INotebookVariableElement × List ProviderQuery × CancellationState :=
  if P < parent.indexedChildrenCount then
    (synthesizeRanges P parent, [], s)
  else if 0 < parent.indexedChildrenCount then
    let startOffset := parent.indexStart.getD 0
    let results :=
      kernel.provideVariables parent.notebook.uri (some parent.extHostId)
        QueryMode.indexed startOffset
    let consumed := consumeIndexedLoop P parent.notebook [] results
    (consumed.1,
     [{ uri := parent.notebook.uri, handle := some parent.extHostId,
        mode := QueryMode.indexed, startOffset := startOffset, token := s.current,
        elementsPulled := consumed.2 }],
     s)
  else ([], [], s)

/-- Method `getVariables(parent)`: no selected kernel or no variable provider
yields `[]`; otherwise the named-children query (token read at issue
time) is awaited first — `cancelMid` says whether the host invokes
`cancel()` during that suspension — and then, if
`indexedChildrenCount > 0`, the indexed children are resolved under the
then-current cancellation state. -/
def getVariablesM (P : Nat) (kernelFor : NotebookTextModel → Option INotebookKernel)
    (cancelMid : Bool) (parent : INotebookVariableElement) (s : CancellationState) :
    List INotebookVariableElement × List ProviderQuery × CancellationState :=
  match kernelFor parent.notebook with
  | none => ([], [], s)
  | some selectedKernel =>
    if selectedKernel.hasVariableProvider then
      let namedPhase :
          List INotebookVariableElement × List ProviderQuery × CancellationState :=
        if parent.hasNamedChildren then
          let results :=
            selectedKernel.provideVariables parent.notebook.uri (some parent.extHostId)
              QueryMode.named 0
          ((results.map fun v => createVariableElement v parent.notebook),
           [{ uri := parent.notebook.uri, handle := some parent.extHostId,
              mode := QueryMode.named, startOffset := 0, token := s.current,
              elementsPulled := results.length }],
           if cancelMid then cancel s else s)
        else ([], [], s)
      let indexedPhase :
          List INotebookVariableElement × List ProviderQuery × CancellationState :=
        if 0 < parent.indexedChildrenCount then
          getIndexedChildrenM P selectedKernel parent namedPhase.2.2
        else ([], [], namedPhase.2.2)
      (namedPhase.1 ++ indexedPhase.1, namedPhase.2.1 ++ indexedPhase.2.1,
       indexedPhase.2.2)
    else ([], [], s)

/-- Method `getRootVariables(notebook)`: one named-mode query against the
document root handle (`undefined`), every result wrapped. -/
def getRootVariablesM (kernelFor : NotebookTextModel → Option INotebookKernel)
    (notebook : NotebookTextModel) (s : CancellationState) :
    List INotebookVariableElement × List ProviderQuery × CancellationState :=
  match kernelFor notebook with
  | none => ([], [], s)
  | some selectedKernel =>
    if selectedKernel.hasVariableProvider then
      let results := selectedKernel.provideVariables notebook.uri none QueryMode.named 0
      ((results.map fun v => createVariableElement v notebook),
       [{ uri := notebook.uri, handle := none, mode := QueryMode.named,
          startOffset := 0, token := s.current, elementsPulled := results.length }],
       s)
    else ([], [], s)

/-- Method `getChildren(element)`: dispatch on the `kind` discriminant. -/
def getChildrenM (P : Nat) (kernelFor : NotebookTextModel → Option INotebookKernel)
    (cancelMid : Bool) (element : NotebookElement) (s : CancellationState) :
    List INotebookVariableElement × List ProviderQuery × CancellationState :=
  match element with
  | .root notebook => getRootVariablesM kernelFor notebook s
  | .variableNode v => getVariablesM P kernelFor cancelMid v s

/-- Method `hasChildren(element)`: a pure predicate over the element alone — it
takes no kernel and issues no provider query. -/
def hasChildren : NotebookElement → Bool
  | .root _ => true
  | .variableNode v => v.hasNamedChildren || decide (0 < v.indexedChildrenCount)

/-! ### Helper lemmas -/

theorem consumeIndexedLoop_eq (P : Nat) (notebook : NotebookTextModel) :
    ∀ (seq : List VariablesResult) (acc : List INotebookVariableElement),
      acc.length < P →
      consumeIndexedLoop P notebook acc seq =
        (acc ++ (seq.take (P - acc.length)).map (fun v => createVariableElement v notebook),
         min seq.length (P - acc.length)) := by
  intro seq
  induction seq with
  | nil =>
    intro acc h
    simp [consumeIndexedLoop]
  | cons v rest ih =>
    intro acc h
    show (if P ≤ (acc ++ [createVariableElement v notebook]).length then _ else _) = _
    by_cases hge : P ≤ (acc ++ [createVariableElement v notebook]).length
    · rw [if_pos hge]
      have hlen : (acc ++ [createVariableElement v notebook]).length = acc.length + 1 := by
        simp
      have h1 : P - acc.length = 1 := by omega
      rw [h1]
      simp only [List.take_succ_cons, List.take_zero, List.map_cons, List.map_nil,
        Prod.mk.injEq]
      refine ⟨by simp, ?_⟩
      simp only [List.length_cons]
      omega
    · rw [if_neg hge]
      have hlen : (acc ++ [createVariableElement v notebook]).length = acc.length + 1 := by
        simp
      have hlt : (acc ++ [createVariableElement v notebook]).length < P := by omega
      rw [ih _ hlt]
      have h2 : P - acc.length = (P - (acc.length + 1)) + 1 := by omega
      simp only [Prod.mk.injEq]
      refine ⟨?_, ?_⟩
      · rw [hlen, h2, List.take_succ_cons]
        simp
      · rw [hlen, List.length_cons, h2]
        omega

theorem mem_consumeIndexedLoop (P : Nat) (notebook : NotebookTextModel) :
    ∀ (seq : List VariablesResult) (acc : List INotebookVariableElement)
      (x : INotebookVariableElement), x ∈ (consumeIndexedLoop P notebook acc seq).1 →
      x ∈ acc ∨ ∃ v, x = createVariableElement v notebook := by
  intro seq
  induction seq with
  | nil =>
    intro acc x hx
    exact Or.inl hx
  | cons v rest ih =>
    intro acc x hx
    rw [show consumeIndexedLoop P notebook acc (v :: rest)
          = (if P ≤ (acc ++ [createVariableElement v notebook]).length
             then (acc ++ [createVariableElement v notebook], 1)
             else ((consumeIndexedLoop P notebook (acc ++ [createVariableElement v notebook]) rest).1,
                   (consumeIndexedLoop P notebook (acc ++ [createVariableElement v notebook]) rest).2 + 1))
        from rfl] at hx
    by_cases hge : P ≤ (acc ++ [createVariableElement v notebook]).length
    · rw [if_pos hge] at hx
      rcases List.mem_append.mp hx with h | h
      · exact Or.inl h
      · exact Or.inr ⟨v, List.mem_singleton.mp h⟩
    · rw [if_neg hge] at hx
      rcases ih (acc ++ [createVariableElement v notebook]) x hx with h | h
      · rcases List.mem_append.mp h with h2 | h2
        · exact Or.inl h2
        · exact Or.inr ⟨v, List.mem_singleton.mp h2⟩
      · exact Or.inr h

theorem synthesizeRangesLoop_eq (P : Nat) (hP : 0 < P) (parent : INotebookVariableElement) :
    ∀ (fuel start : Nat), parent.indexedChildrenCount - start ≤ fuel →
      synthesizeRangesLoop P parent fuel start =
        (List.range ((parent.indexedChildrenCount - start + P - 1) / P)).map
          (fun i => mkRangeNode parent (start + i * P)
            (min (start + i * P + P) parent.indexedChildrenCount)) := by
  intro fuel
  induction fuel with
  | zero =>
    intro start h
    have hC : parent.indexedChildrenCount - start = 0 := by omega
    rw [synthesizeRangesLoop, hC]
    have : (0 + P - 1) / P = 0 := Nat.div_eq_of_lt (by omega)
    rw [this]
    simp
  | succ fuel ih =>
    intro start h
    rw [synthesizeRangesLoop]
    by_cases hs : start < parent.indexedChildrenCount
    · rw [if_pos hs]
      have hsub : parent.indexedChildrenCount - (start + P)
          = parent.indexedChildrenCount - start - P := by omega
      have hquot : (parent.indexedChildrenCount - start + P - 1) / P
          = (parent.indexedChildrenCount - start - P + P - 1) / P + 1 := by
        rcases le_or_lt (parent.indexedChildrenCount - start) P with hle | hlt
        · have h0 : parent.indexedChildrenCount - start - P = 0 := by omega
          rw [h0]
          have hr : (0 + P - 1) / P = 0 := Nat.div_eq_of_lt (by omega)
          rw [hr]
          apply Nat.div_eq_of_lt_le
          · omega
          · omega
        · have heq : parent.indexedChildrenCount - start + P - 1
              = (parent.indexedChildrenCount - start - P + P - 1) + P := by omega
          rw [heq, Nat.add_div_right _ hP]
      have hstop : (if parent.indexedChildrenCount < start + P then
            parent.indexedChildrenCount else start + P)
          = min (start + P) parent.indexedChildrenCount := by
        rcases le_or_lt (start + P) parent.indexedChildrenCount with h1 | h1
        · rw [if_neg (by omega), min_eq_left h1]
        · rw [if_pos h1, min_eq_right (by omega)]
      show mkRangeNode parent start
            (if parent.indexedChildrenCount < start + P then
              parent.indexedChildrenCount else start + P) ::
          synthesizeRangesLoop P parent fuel (start + P) = _
      rw [hstop, ih (start + P) (by omega), hsub, hquot, List.range_succ_eq_map,
        List.map_cons, List.map_map]
      congr 1
      · simp
      · apply List.map_congr_left
        intro i _
        simp only [Function.comp_apply, Nat.succ_eq_add_one]
        have e1 : start + (i + 1) * P = start + P + i * P := by ring
        rw [e1]
    · rw [if_neg hs]
      have hC : parent.indexedChildrenCount - start = 0 := by omega
      rw [hC]
      have : (0 + P - 1) / P = 0 := Nat.div_eq_of_lt (by omega)
      rw [this]
      simp

theorem synthesizeRanges_eq (P : Nat) (hP : 0 < P) (parent : INotebookVariableElement) :
    synthesizeRanges P parent =
      (List.range ((parent.indexedChildrenCount + P - 1) / P)).map
        (fun i => mkRangeNode parent (i * P)
          (min (i * P + P) parent.indexedChildrenCount)) := by
  unfold synthesizeRanges
  rw [synthesizeRangesLoop_eq P hP parent parent.indexedChildrenCount 0 (by omega)]
  simp

theorem mem_synthesizeRangesLoop (P : Nat) (parent : INotebookVariableElement) :
    ∀ (fuel start : Nat) (x : INotebookVariableElement),
      x ∈ synthesizeRangesLoop P parent fuel start →
      ∃ a b, x = mkRangeNode parent a b := by
  intro fuel
  induction fuel with
  | zero =>
    intro start x hx
    rw [synthesizeRangesLoop] at hx
    exact absurd hx (List.not_mem_nil x)
  | succ fuel ih =>
    intro start x hx
    rw [synthesizeRangesLoop] at hx
    by_cases hs : start < parent.indexedChildrenCount
    · rw [if_pos hs] at hx
      rcases List.mem_cons.mp hx with h | h
      · exact ⟨start, _, h⟩
      · exact ih _ x h
    · rw [if_neg hs] at hx
      exact absurd hx (List.not_mem_nil x)

theorem mul_lt_of_lt_ceil (P C i : Nat) (hP : 0 < P)
    (hi : i < (C + P - 1) / P) : i * P < C := by
  have h1 : (i + 1) * P ≤ ((C + P - 1) / P) * P :=
    Nat.mul_le_mul_right P hi
  have h2 : ((C + P - 1) / P) * P ≤ C + P - 1 := Nat.div_mul_le_self _ _
  have h3 : (i + 1) * P = i * P + P := by ring
  omega

theorem le_mul_ceil (P C : Nat) (hP : 0 < P) : C ≤ ((C + P - 1) / P) * P := by
  have h1 := Nat.div_add_mod (C + P - 1) P
  have h2 : (C + P - 1) % P < P := Nat.mod_lt _ hP
  have h3 : ((C + P - 1) / P) * P = P * ((C + P - 1) / P) := Nat.mul_comm _ _
  omega

theorem block_count_eq (P C i : Nat) (hP : 0 < P)
    (hi : i < (C + P - 1) / P) :
    min (i * P + P) C - i * P =
      if i + 1 = (C + P - 1) / P then (if C % P = 0 then P else C % P) else P := by
  have hiPC : i * P < C := mul_lt_of_lt_ceil P C i hP hi
  by_cases hlast : i + 1 = (C + P - 1) / P
  · rw [if_pos hlast]
    have hub : C ≤ ((C + P - 1) / P) * P := le_mul_ceil P C hP
    have hmulsucc : (i + 1) * P = i * P + P := by ring
    have hCle : C ≤ i * P + P := by
      rw [← hmulsucc, hlast]
      exact hub
    rw [min_eq_right hCle]
    have hq := Nat.div_add_mod C P
    have hr : C % P < P := Nat.mod_lt _ hP
    by_cases hr0 : C % P = 0
    · rw [if_pos hr0]
      -- C = P * (C / P), and the last block index is C / P - 1
      have hCq : C = P * (C / P) := by omega
      have hqpos : 0 < C / P := by
        rcases Nat.eq_zero_or_pos (C / P) with h | h
        · rw [h, Nat.mul_zero] at hCq
          omega
        · exact h
      have hkq : (C + P - 1) / P = C / P := by
        have he : C + P - 1 = P * (C / P) + (P - 1) := by omega
        rw [he, Nat.mul_add_div hP]
        have : (P - 1) / P = 0 := Nat.div_eq_of_lt (by omega)
        omega
      have hieq : i = C / P - 1 := by omega
      have hmul : (C / P - 1) * P + P = (C / P) * P := by
        have h3 : C / P - 1 + 1 = C / P := by omega
        calc (C / P - 1) * P + P = (C / P - 1 + 1) * P := by ring
          _ = (C / P) * P := by rw [h3]
      have hcomm : (C / P) * P = P * (C / P) := Nat.mul_comm _ _
      have hiP : i * P = (C / P - 1) * P := by rw [hieq]
      omega
    · rw [if_neg hr0]
      have hkq : (C + P - 1) / P = C / P + 1 := by
        have he : C + P - 1 = P * (C / P) + (C % P + P - 1) := by omega
        rw [he, Nat.mul_add_div hP]
        have : (C % P + P - 1) / P = 1 := by
          apply Nat.div_eq_of_lt_le
          · omega
          · omega
        omega
      have hieq : i = C / P := by omega
      have hcomm : (C / P) * P = P * (C / P) := Nat.mul_comm _ _
      have hiP : i * P = (C / P) * P := by rw [hieq]
      omega
  · rw [if_neg hlast]
    have h2 : i + 1 < (C + P - 1) / P := by omega
    have h3 : (i + 1) * P < C := mul_lt_of_lt_ceil P C (i + 1) hP h2
    have h4 : (i + 1) * P = i * P + P := by ring
    have h5 : i * P + P ≤ C := by omega
    rw [min_eq_left h5]
    omega

theorem getIndexedChildrenM_state (P : Nat) (kernel : INotebookKernel)
    (parent : INotebookVariableElement) (s : CancellationState) :
    (getIndexedChildrenM P kernel parent s).2.2 = s := by
  unfold getIndexedChildrenM
  by_cases h1 : P < parent.indexedChildrenCount
  · rw [if_pos h1]
  · rw [if_neg h1]
    by_cases h2 : 0 < parent.indexedChildrenCount
    · rw [if_pos h2]
    · rw [if_neg h2]

theorem getIndexedChildrenM_token (P : Nat) (kernel : INotebookKernel)
    (parent : INotebookVariableElement) (s : CancellationState) :
    ∀ q ∈ (getIndexedChildrenM P kernel parent s).2.1, q.token = s.current := by
  unfold getIndexedChildrenM
  by_cases h1 : P < parent.indexedChildrenCount
  · rw [if_pos h1]
    intro q hq
    exact absurd hq (List.not_mem_nil q)
  · rw [if_neg h1]
    by_cases h2 : 0 < parent.indexedChildrenCount
    · rw [if_pos h2]
      intro q hq
      rw [List.mem_singleton.mp hq]
    · rw [if_neg h2]
      intro q hq
      exact absurd hq (List.not_mem_nil q)

theorem getVariablesM_noCancel (P : Nat)
    (kernelFor : NotebookTextModel → Option INotebookKernel)
    (parent : INotebookVariableElement) (s : CancellationState) :
    (getVariablesM P kernelFor false parent s).2.2 = s ∧
    ∀ q ∈ (getVariablesM P kernelFor false parent s).2.1, q.token = s.current := by
  unfold getVariablesM
  cases hk : kernelFor parent.notebook with
  | none => exact ⟨rfl, fun q hq => absurd hq (List.not_mem_nil q)⟩
  | some k =>
    by_cases hprov : k.hasVariableProvider = true
    · simp only [hprov, if_true]
      by_cases hnamed : parent.hasNamedChildren = true
      · simp only [hnamed, if_true, Bool.false_eq_true, if_false]
        by_cases hidx : 0 < parent.indexedChildrenCount
        · simp only [hidx, if_true]
          refine ⟨getIndexedChildrenM_state P k parent s, ?_⟩
          intro q hq
          rcases List.mem_append.mp hq with h | h
          · rw [List.mem_singleton.mp h]
          · exact getIndexedChildrenM_token P k parent s q h
        · simp only [hidx, if_false]
          refine ⟨trivial, ?_⟩
          intro q hq
          rcases List.mem_append.mp hq with h | h
          · rw [List.mem_singleton.mp h]
          · exact absurd h (List.not_mem_nil q)
      · simp only [hnamed, if_false, Bool.false_eq_true]
        by_cases hidx : 0 < parent.indexedChildrenCount
        · simp only [hidx, if_true]
          refine ⟨getIndexedChildrenM_state P k parent s, ?_⟩
          intro q hq
          rcases List.mem_append.mp hq with h | h
          · exact absurd h (List.not_mem_nil q)
          · exact getIndexedChildrenM_token P k parent s q h
        · simp only [hidx, if_false]
          refine ⟨trivial, ?_⟩
          intro q hq
          rcases List.mem_append.mp hq with h | h
          · exact absurd h (List.not_mem_nil q)
          · exact absurd h (List.not_mem_nil q)
    · simp only [Bool.not_eq_true] at hprov
      simp only [hprov, Bool.false_eq_true, if_false]
      exact ⟨trivial, fun q hq => absurd hq (List.not_mem_nil q)⟩

theorem getRootVariablesM_noCancel
    (kernelFor : NotebookTextModel → Option INotebookKernel)
    (notebook : NotebookTextModel) (s : CancellationState) :
    (getRootVariablesM kernelFor notebook s).2.2 = s ∧
    ∀ q ∈ (getRootVariablesM kernelFor notebook s).2.1, q.token = s.current := by
  unfold getRootVariablesM
  cases hk : kernelFor notebook with
  | none => exact ⟨rfl, fun q hq => absurd hq (List.not_mem_nil q)⟩
  | some k =>
    by_cases hprov : k.hasVariableProvider = true
    · simp only [hprov, if_true]
      refine ⟨trivial, ?_⟩
      intro q hq
      rw [List.mem_singleton.mp hq]
    · simp only [Bool.not_eq_true] at hprov
      simp only [hprov, Bool.false_eq_true, if_false]
      exact ⟨trivial, fun q hq => absurd hq (List.not_mem_nil q)⟩

theorem getChildrenM_noCancel (P : Nat)
    (kernelFor : NotebookTextModel → Option INotebookKernel)
    (element : NotebookElement) (s : CancellationState) :
    (getChildrenM P kernelFor false element s).2.2 = s ∧
    ∀ q ∈ (getChildrenM P kernelFor false element s).2.1, q.token = s.current := by
  cases element with
  | root notebook => exact getRootVariablesM_noCancel kernelFor notebook s
  | variableNode v => exact getVariablesM_noCancel P kernelFor v s

theorem isRevoked_false_iff (s : CancellationState) (t : Nat) :
    isRevoked s t = false ↔ t ∉ s.revoked := by
  unfold isRevoked
  simp [List.contains]

theorem isRevoked_true_iff (s : CancellationState) (t : Nat) :
    isRevoked s t = true ↔ t ∈ s.revoked := by
  unfold isRevoked
  simp [List.contains]

theorem cancel_inv (s : CancellationState) (h : CancellationInv s) :
    CancellationInv (cancel s) := by
  obtain ⟨h1, h2, h3⟩ := h
  have hc : (cancel s).current = s.nextId := rfl
  have hn : (cancel s).nextId = s.nextId + 1 := rfl
  have hr : (cancel s).revoked = s.current :: s.revoked := rfl
  refine ⟨?_, ?_, ?_⟩
  · rw [hc, hr]
    intro hmem
    rcases List.mem_cons.mp hmem with h4 | h4
    · omega
    · exact absurd (h3 _ h4) (by omega)
  · rw [hc, hn]
    omega
  · rw [hn, hr]
    intro t ht
    rcases List.mem_cons.mp ht with h4 | h4
    · omega
    · have h5 := h3 _ h4
      omega

theorem cancel_current_not_revoked (s : CancellationState) (h : CancellationInv s) :
    isRevoked (cancel s) (cancel s).current = false := by
  obtain ⟨h1, h2, h3⟩ := h
  have hc : (cancel s).current = s.nextId := rfl
  have hr : (cancel s).revoked = s.current :: s.revoked := rfl
  rw [isRevoked_false_iff, hc, hr]
  intro hmem
  rcases List.mem_cons.mp hmem with h4 | h4
  · omega
  · exact absurd (h3 _ h4) (by omega)

theorem cancel_revokes_old (s : CancellationState) :
    isRevoked (cancel s) s.current = true := by
  rw [isRevoked_true_iff]
  have hr : (cancel s).revoked = s.current :: s.revoked := rfl
  rw [hr]
  exact List.mem_cons_self _ _

/-! ### Sample inputs used by the witnesses -/

def sampleNotebook : NotebookTextModel := { uri := "nb" }

def sampleSeq : List VariablesResult :=
  [{ id := 10, name := "a", value := "1", type? := none,
     indexedChildrenCount := 0, hasNamedChildren := false },
   { id := 11, name := "b", value := "2", type? := none,
     indexedChildrenCount := 0, hasNamedChildren := false },
   { id := 12, name := "c", value := "3", type? := none,
     indexedChildrenCount := 0, hasNamedChildren := false },
   { id := 13, name := "d", value := "4", type? := none,
     indexedChildrenCount := 0, hasNamedChildren := false }]

def sampleKernel : INotebookKernel :=
  { hasVariableProvider := true
    provideVariables := fun _ _ _ _ => sampleSeq }

def sampleKernelFor : NotebookTextModel → Option INotebookKernel :=
  fun _ => some sampleKernel

def bigParent : INotebookVariableElement :=
  { id := "8", extHostId := 8, name := "arr", value := "", type? := none,
    indexedChildrenCount := 5, indexStart := none, hasNamedChildren := false,
    notebook := sampleNotebook }

def smallParent : INotebookVariableElement :=
  { id := "9", extHostId := 9, name := "obj", value := "", type? := none,
    indexedChildrenCount := 2, indexStart := none, hasNamedChildren := true,
    notebook := sampleNotebook }

/-! ### Claim theorems -/

/-- C3: `hasChildren` is a pure predicate over the element alone (its
type consults no provider and can issue no query): it returns `true` for
the Scope (`kind 'root'`), and for a Node it is `true` exactly when
`hasNamedChildren` is true or `indexedChildrenCount > 0`. -/
theorem C3_hasChildren_pure :
    (∀ notebook : NotebookTextModel,
      hasChildren (NotebookElement.root notebook) = true) ∧
    (∀ v : INotebookVariableElement,
      hasChildren (NotebookElement.variableNode v) = true ↔
        v.hasNamedChildren = true ∨ 0 < v.indexedChildrenCount) := by
  constructor
  · intro notebook
    rfl
  · intro v
    unfold hasChildren
    simp [Bool.or_eq_true]

/-- C5: when no kernel is selected for the element's notebook, or the
selected kernel lacks the variable-provisioning capability,
`getChildren` returns the empty sequence (and issues no provider query)
rather than failing — for the Scope or any Node. -/
theorem C5_no_provider_empty (P : Nat)
    (kernelFor : NotebookTextModel → Option INotebookKernel) (cancelMid : Bool)
    (element : NotebookElement) (s : CancellationState)
    (h : ∀ k, kernelFor (elementNotebook element) = some k →
      k.hasVariableProvider = false) :
    (getChildrenM P kernelFor cancelMid element s).1 = [] ∧
    (getChildrenM P kernelFor cancelMid element s).2.1 = [] := by
  cases element with
  | root notebook =>
    show (getRootVariablesM kernelFor notebook s).1 = [] ∧
      (getRootVariablesM kernelFor notebook s).2.1 = []
    unfold getRootVariablesM
    cases hk : kernelFor notebook with
    | none => exact ⟨rfl, rfl⟩
    | some k =>
      have hp : k.hasVariableProvider = false :=
        h k (by simpa [elementNotebook] using hk)
      simp [hp]
  | variableNode v =>
    show (getVariablesM P kernelFor cancelMid v s).1 = [] ∧
      (getVariablesM P kernelFor cancelMid v s).2.1 = []
    unfold getVariablesM
    cases hk : kernelFor v.notebook with
    | none => exact ⟨rfl, rfl⟩
    | some k =>
      have hp : k.hasVariableProvider = false :=
        h k (by simpa [elementNotebook] using hk)
      simp [hp]

theorem C5_no_provider_empty_witness :
    (getChildrenM 2 (fun _ => none) false (NotebookElement.root sampleNotebook)
        CancellationState.initial).1 = [] ∧
    (getChildrenM 2 (fun _ => none) false (NotebookElement.root sampleNotebook)
        CancellationState.initial).2.1 = [] :=
  C5_no_provider_empty 2 (fun _ => none) false (NotebookElement.root sampleNotebook)
    CancellationState.initial (fun _ hk => Option.noConfusion hk)

/-- C1: for a node whose `indexedChildrenCount = C` exceeds the page
size `P`, the indexed part of `getChildren` (`getIndexedChildren`)
issues no provider query and returns exactly `⌈C/P⌉ = (C + P - 1) / P`
synthesized range nodes: their `indexStart` values are
`0, P, 2P, …` (strictly increasing, so no overlap), each covers up to
`min ((i+1)·P) C` (so consecutive blocks abut and the last ends at `C`:
no gaps, covering `[0, C)`), and each `indexedChildrenCount` is `P`
except possibly the last block's, which is `C mod P` (or `P` when `P`
divides `C`). -/
theorem C1_range_split (P : Nat) (kernel : INotebookKernel)
    (parent : INotebookVariableElement) (s : CancellationState)
    (hP : 0 < P) (hC : P < parent.indexedChildrenCount) :
    (getIndexedChildrenM P kernel parent s).2.1 = [] ∧
    (getIndexedChildrenM P kernel parent s).1.length
      = (parent.indexedChildrenCount + P - 1) / P ∧
    (getIndexedChildrenM P kernel parent s).1.map (fun n => n.indexStart)
      = (List.range ((parent.indexedChildrenCount + P - 1) / P)).map
          (fun i => some (i * P)) ∧
    (getIndexedChildrenM P kernel parent s).1.map (fun n => n.indexedChildrenCount)
      = (List.range ((parent.indexedChildrenCount + P - 1) / P)).map
          (fun i => if i + 1 = (parent.indexedChildrenCount + P - 1) / P
            then (if parent.indexedChildrenCount % P = 0 then P
                  else parent.indexedChildrenCount % P)
            else P) ∧
    (getIndexedChildrenM P kernel parent s).1.map
        (fun n => n.indexStart.getD 0 + n.indexedChildrenCount)
      = (List.range ((parent.indexedChildrenCount + P - 1) / P)).map
          (fun i => min ((i + 1) * P) parent.indexedChildrenCount) := by
  have hbranch : getIndexedChildrenM P kernel parent s
      = (synthesizeRanges P parent, [], s) := by
    unfold getIndexedChildrenM
    rw [if_pos hC]
  rw [hbranch]
  refine ⟨rfl, ?_, ?_, ?_, ?_⟩
  · show (synthesizeRanges P parent).length = _
    rw [synthesizeRanges_eq P hP parent]
    simp
  · show (synthesizeRanges P parent).map (fun n => n.indexStart) = _
    rw [synthesizeRanges_eq P hP parent, List.map_map]
    apply List.map_congr_left
    intro i hi
    simp [mkRangeNode]
  · show (synthesizeRanges P parent).map (fun n => n.indexedChildrenCount) = _
    rw [synthesizeRanges_eq P hP parent, List.map_map]
    apply List.map_congr_left
    intro i hi
    have hi2 : i < (parent.indexedChildrenCount + P - 1) / P := List.mem_range.mp hi
    simp only [Function.comp_apply, mkRangeNode]
    exact block_count_eq P parent.indexedChildrenCount i hP hi2
  · show (synthesizeRanges P parent).map
        (fun n => n.indexStart.getD 0 + n.indexedChildrenCount) = _
    rw [synthesizeRanges_eq P hP parent, List.map_map]
    apply List.map_congr_left
    intro i hi
    have hi2 : i < (parent.indexedChildrenCount + P - 1) / P := List.mem_range.mp hi
    have hlt : i * P < parent.indexedChildrenCount :=
      mul_lt_of_lt_ceil P parent.indexedChildrenCount i hP hi2
    simp only [Function.comp_apply, mkRangeNode, Option.getD_some]
    have hmul : (i + 1) * P = i * P + P := by ring
    omega

theorem C1_range_split_witness :
    (getIndexedChildrenM 2 sampleKernel bigParent CancellationState.initial).2.1 = [] ∧
    (getIndexedChildrenM 2 sampleKernel bigParent CancellationState.initial).1.length
      = (bigParent.indexedChildrenCount + 2 - 1) / 2 ∧
    (getIndexedChildrenM 2 sampleKernel bigParent CancellationState.initial).1.map
        (fun n => n.indexStart)
      = (List.range ((bigParent.indexedChildrenCount + 2 - 1) / 2)).map
          (fun i => some (i * 2)) ∧
    (getIndexedChildrenM 2 sampleKernel bigParent CancellationState.initial).1.map
        (fun n => n.indexedChildrenCount)
      = (List.range ((bigParent.indexedChildrenCount + 2 - 1) / 2)).map
          (fun i => if i + 1 = (bigParent.indexedChildrenCount + 2 - 1) / 2
            then (if bigParent.indexedChildrenCount % 2 = 0 then 2
                  else bigParent.indexedChildrenCount % 2)
            else 2) ∧
    (getIndexedChildrenM 2 sampleKernel bigParent CancellationState.initial).1.map
        (fun n => n.indexStart.getD 0 + n.indexedChildrenCount)
      = (List.range ((bigParent.indexedChildrenCount + 2 - 1) / 2)).map
          (fun i => min ((i + 1) * 2) bigParent.indexedChildrenCount) :=
  C1_range_split 2 sampleKernel bigParent CancellationState.initial
    (by decide) (by decide)

/-- C8: every synthesized range node for the block
`[start, stop) = [i·P, min (i·P + P) C)` has `indexStart = start`,
`indexedChildrenCount = stop - start`, `hasNamedChildren = false`, an
empty display value, display name `"[start..stop-1]"` (inclusive
bracketed range), and identifier `parent.id ++ toString start`. -/
theorem C8_range_node_shape (P : Nat) (kernel : INotebookKernel)
    (parent : INotebookVariableElement) (s : CancellationState)
    (hP : 0 < P) (hC : P < parent.indexedChildrenCount) :
    (getIndexedChildrenM P kernel parent s).1.map (fun n => n.indexStart)
      = (List.range ((parent.indexedChildrenCount + P - 1) / P)).map
          (fun i => some (i * P)) ∧
    (getIndexedChildrenM P kernel parent s).1.map (fun n => n.indexedChildrenCount)
      = (List.range ((parent.indexedChildrenCount + P - 1) / P)).map
          (fun i => min (i * P + P) parent.indexedChildrenCount - i * P) ∧
    (getIndexedChildrenM P kernel parent s).1.map (fun n => n.hasNamedChildren)
      = List.replicate ((parent.indexedChildrenCount + P - 1) / P) false ∧
    (getIndexedChildrenM P kernel parent s).1.map (fun n => n.value)
      = List.replicate ((parent.indexedChildrenCount + P - 1) / P) "" ∧
    (getIndexedChildrenM P kernel parent s).1.map (fun n => n.name)
      = (List.range ((parent.indexedChildrenCount + P - 1) / P)).map
          (fun i => "[" ++ toString (i * P) ++ ".."
            ++ toString (min (i * P + P) parent.indexedChildrenCount - 1) ++ "]") ∧
    (getIndexedChildrenM P kernel parent s).1.map (fun n => n.id)
      = (List.range ((parent.indexedChildrenCount + P - 1) / P)).map
          (fun i => parent.id ++ toString (i * P)) := by
  have hbranch : getIndexedChildrenM P kernel parent s
      = (synthesizeRanges P parent, [], s) := by
    unfold getIndexedChildrenM
    rw [if_pos hC]
  rw [hbranch]
  refine ⟨?_, ?_, ?_, ?_, ?_, ?_⟩
  · show (synthesizeRanges P parent).map (fun n => n.indexStart) = _
    rw [synthesizeRanges_eq P hP parent, List.map_map]
    apply List.map_congr_left
    intro i hi
    simp [mkRangeNode]
  · show (synthesizeRanges P parent).map (fun n => n.indexedChildrenCount) = _
    rw [synthesizeRanges_eq P hP parent, List.map_map]
    apply List.map_congr_left
    intro i hi
    simp [mkRangeNode]
  · show (synthesizeRanges P parent).map (fun n => n.hasNamedChildren) = _
    rw [synthesizeRanges_eq P hP parent, List.map_map]
    have hrep : List.replicate ((parent.indexedChildrenCount + P - 1) / P) false
        = (List.range ((parent.indexedChildrenCount + P - 1) / P)).map
            (fun _ => false) := by
      rw [List.map_const']
      simp
    rw [hrep]
    apply List.map_congr_left
    intro i hi
    simp [mkRangeNode]
  · show (synthesizeRanges P parent).map (fun n => n.value) = _
    rw [synthesizeRanges_eq P hP parent, List.map_map]
    have hrep : List.replicate ((parent.indexedChildrenCount + P - 1) / P) ""
        = (List.range ((parent.indexedChildrenCount + P - 1) / P)).map
            (fun _ => ("" : String)) := by
      rw [List.map_const']
      simp
    rw [hrep]
    apply List.map_congr_left
    intro i hi
    simp [mkRangeNode]
  · show (synthesizeRanges P parent).map (fun n => n.name) = _
    rw [synthesizeRanges_eq P hP parent, List.map_map]
    apply List.map_congr_left
    intro i hi
    simp [mkRangeNode]
  · show (synthesizeRanges P parent).map (fun n => n.id) = _
    rw [synthesizeRanges_eq P hP parent, List.map_map]
    apply List.map_congr_left
    intro i hi
    simp [mkRangeNode]

theorem C8_range_node_shape_witness :
    (getIndexedChildrenM 2 sampleKernel bigParent CancellationState.initial).1.map
        (fun n => n.indexStart)
      = (List.range ((bigParent.indexedChildrenCount + 2 - 1) / 2)).map
          (fun i => some (i * 2)) ∧
    (getIndexedChildrenM 2 sampleKernel bigParent CancellationState.initial).1.map
        (fun n => n.indexedChildrenCount)
      = (List.range ((bigParent.indexedChildrenCount + 2 - 1) / 2)).map
          (fun i => min (i * 2 + 2) bigParent.indexedChildrenCount - i * 2) ∧
    (getIndexedChildrenM 2 sampleKernel bigParent CancellationState.initial).1.map
        (fun n => n.hasNamedChildren)
      = List.replicate ((bigParent.indexedChildrenCount + 2 - 1) / 2) false ∧
    (getIndexedChildrenM 2 sampleKernel bigParent CancellationState.initial).1.map
        (fun n => n.value)
      = List.replicate ((bigParent.indexedChildrenCount + 2 - 1) / 2) "" ∧
    (getIndexedChildrenM 2 sampleKernel bigParent CancellationState.initial).1.map
        (fun n => n.name)
      = (List.range ((bigParent.indexedChildrenCount + 2 - 1) / 2)).map
          (fun i => "[" ++ toString (i * 2) ++ ".."
            ++ toString (min (i * 2 + 2) bigParent.indexedChildrenCount - 1) ++ "]") ∧
    (getIndexedChildrenM 2 sampleKernel bigParent CancellationState.initial).1.map
        (fun n => n.id)
      = (List.range ((bigParent.indexedChildrenCount + 2 - 1) / 2)).map
          (fun i => bigParent.id ++ toString (i * 2)) :=
  C8_range_node_shape 2 sampleKernel bigParent CancellationState.initial
    (by decide) (by decide)

/-- C2: for a node with `0 < indexedChildrenCount ≤ P`, the indexed part
of `getChildren` issues exactly one provider query, in indexed mode,
starting at the node's `indexStart` (0 when absent) and carrying the
current token; it returns the first `min (sequence length) P` provider
elements wrapped in order (`take P`), hence at most `P` nodes, and the
number of elements pulled from the provider sequence is
`min (sequence length) P ≤ P` — it never pulls beyond the `P`-th element
even when the sequence is longer. -/
theorem C2_small_range (P : Nat) (kernel : INotebookKernel)
    (parent : INotebookVariableElement) (s : CancellationState)
    (hP : 0 < P) (h0 : 0 < parent.indexedChildrenCount)
    (hle : parent.indexedChildrenCount ≤ P) :
    (getIndexedChildrenM P kernel parent s).2.1
      = [{ uri := parent.notebook.uri, handle := some parent.extHostId,
           mode := QueryMode.indexed, startOffset := parent.indexStart.getD 0,
           token := s.current,
           elementsPulled := min (kernel.provideVariables parent.notebook.uri
               (some parent.extHostId) QueryMode.indexed
               (parent.indexStart.getD 0)).length P }] ∧
    min (kernel.provideVariables parent.notebook.uri (some parent.extHostId)
        QueryMode.indexed (parent.indexStart.getD 0)).length P ≤ P ∧
    (getIndexedChildrenM P kernel parent s).1
      = ((kernel.provideVariables parent.notebook.uri (some parent.extHostId)
            QueryMode.indexed (parent.indexStart.getD 0)).take P).map
          (fun v => createVariableElement v parent.notebook) ∧
    (getIndexedChildrenM P kernel parent s).1.length ≤ P := by
  have hnotbig : ¬ (P < parent.indexedChildrenCount) := by omega
  have hbranch : getIndexedChildrenM P kernel parent s
      = ((consumeIndexedLoop P parent.notebook []
            (kernel.provideVariables parent.notebook.uri (some parent.extHostId)
              QueryMode.indexed (parent.indexStart.getD 0))).1,
         [{ uri := parent.notebook.uri, handle := some parent.extHostId,
            mode := QueryMode.indexed, startOffset := parent.indexStart.getD 0,
            token := s.current,
            elementsPulled := (consumeIndexedLoop P parent.notebook []
              (kernel.provideVariables parent.notebook.uri (some parent.extHostId)
                QueryMode.indexed (parent.indexStart.getD 0))).2 }],
         s) := by
    unfold getIndexedChildrenM
    rw [if_neg hnotbig, if_pos h0]
  have hconsume := consumeIndexedLoop_eq P parent.notebook
    (kernel.provideVariables parent.notebook.uri (some parent.extHostId)
      QueryMode.indexed (parent.indexStart.getD 0)) []
    (by simpa using hP)
  rw [hbranch, hconsume]
  simp only [List.length_nil, Nat.sub_zero, List.nil_append]
  refine ⟨trivial, by omega, trivial, ?_⟩
  simp only [List.length_map, List.length_take]
  omega

theorem C2_small_range_witness :
    (getIndexedChildrenM 2 sampleKernel smallParent CancellationState.initial).2.1
      = [{ uri := smallParent.notebook.uri, handle := some smallParent.extHostId,
           mode := QueryMode.indexed, startOffset := smallParent.indexStart.getD 0,
           token := CancellationState.initial.current,
           elementsPulled := min (sampleKernel.provideVariables smallParent.notebook.uri
               (some smallParent.extHostId) QueryMode.indexed
               (smallParent.indexStart.getD 0)).length 2 }] ∧
    min (sampleKernel.provideVariables smallParent.notebook.uri
        (some smallParent.extHostId) QueryMode.indexed
        (smallParent.indexStart.getD 0)).length 2 ≤ 2 ∧
    (getIndexedChildrenM 2 sampleKernel smallParent CancellationState.initial).1
      = ((sampleKernel.provideVariables smallParent.notebook.uri
            (some smallParent.extHostId) QueryMode.indexed
            (smallParent.indexStart.getD 0)).take 2).map
          (fun v => createVariableElement v smallParent.notebook) ∧
    (getIndexedChildrenM 2 sampleKernel smallParent CancellationState.initial).1.length
      ≤ 2 :=
  C2_small_range 2 sampleKernel smallParent CancellationState.initial
    (by decide) (by decide) (by decide)

/-- C4: for a node that has both named and indexed children (and a
selected kernel with a variable provider), `getChildren` returns all
named children — the provider's named-mode results wrapped in provider
order — followed by all indexed children or range nodes: the result is
literally the named list concatenated with the indexed list. -/
theorem C4_named_before_indexed (P : Nat)
    (kernelFor : NotebookTextModel → Option INotebookKernel) (cancelMid : Bool)
    (parent : INotebookVariableElement) (s : CancellationState) (k : INotebookKernel)
    (hk : kernelFor parent.notebook = some k) (hprov : k.hasVariableProvider = true)
    (hnamed : parent.hasNamedChildren = true) (hidx : 0 < parent.indexedChildrenCount) :
    (getVariablesM P kernelFor cancelMid parent s).1
      = (k.provideVariables parent.notebook.uri (some parent.extHostId)
            QueryMode.named 0).map (fun v => createVariableElement v parent.notebook)
        ++ (getIndexedChildrenM P k parent
              (if cancelMid then cancel s else s)).1 := by
  unfold getVariablesM
  rw [hk]
  simp [hprov, hnamed, hidx]

theorem C4_named_before_indexed_witness :
    (getVariablesM 2 sampleKernelFor false smallParent CancellationState.initial).1
      = (sampleKernel.provideVariables smallParent.notebook.uri
            (some smallParent.extHostId) QueryMode.named 0).map
          (fun v => createVariableElement v smallParent.notebook)
        ++ (getIndexedChildrenM 2 sampleKernel smallParent
              (if false then cancel CancellationState.initial
               else CancellationState.initial)).1 :=
  C4_named_before_indexed 2 sampleKernelFor false smallParent CancellationState.initial
    sampleKernel rfl (by decide) (by decide) (by decide)

/-- C6: `cancel()` revokes the current handle and installs a brand-new
live one before returning: the old token is revoked, the new current
token is not, and any `getChildren` call issued after `cancel()` (with
no further interleaved cancel) carries only the new, non-revoked token
on every provider query it issues — so, with a provider that does not
itself fail, the fetch completes normally rather than cancelled. -/
theorem C6_cancel_fresh_handle (s : CancellationState) (hInv : CancellationInv s) :
    isRevoked (cancel s) s.current = true ∧
    isRevoked (cancel s) (cancel s).current = false ∧
    ∀ (P : Nat) (kernelFor : NotebookTextModel → Option INotebookKernel)
      (element : NotebookElement),
      (getChildrenM P kernelFor false element (cancel s)).2.2 = cancel s ∧
      ∀ q ∈ (getChildrenM P kernelFor false element (cancel s)).2.1,
        q.token = (cancel s).current ∧
        isRevoked (getChildrenM P kernelFor false element (cancel s)).2.2 q.token
          = false := by
  refine ⟨cancel_revokes_old s, cancel_current_not_revoked s hInv, ?_⟩
  intro P kernelFor element
  obtain ⟨hstate, htok⟩ := getChildrenM_noCancel P kernelFor element (cancel s)
  refine ⟨hstate, ?_⟩
  intro q hq
  have ht := htok q hq
  refine ⟨ht, ?_⟩
  rw [hstate, ht]
  exact cancel_current_not_revoked s hInv

theorem C6_cancel_fresh_handle_witness :
    isRevoked (cancel CancellationState.initial) CancellationState.initial.current
      = true ∧
    isRevoked (cancel CancellationState.initial)
      (cancel CancellationState.initial).current = false ∧
    ∀ (P : Nat) (kernelFor : NotebookTextModel → Option INotebookKernel)
      (element : NotebookElement),
      (getChildrenM P kernelFor false element
        (cancel CancellationState.initial)).2.2 = cancel CancellationState.initial ∧
      ∀ q ∈ (getChildrenM P kernelFor false element
          (cancel CancellationState.initial)).2.1,
        q.token = (cancel CancellationState.initial).current ∧
        isRevoked (getChildrenM P kernelFor false element
            (cancel CancellationState.initial)).2.2 q.token = false :=
  C6_cancel_fresh_handle CancellationState.initial
    ⟨List.not_mem_nil 0, Nat.one_pos, fun t ht => absurd ht (List.not_mem_nil t)⟩

/-- C7: each provider query carries the cancellation token current at
the moment that query is issued, not the token current when the fetch
began: with a `cancel()` interleaved between the named-children query
and the indexed-children query of one `getVariables` fetch, the named
query carries the pre-cancel token (revoked by that cancel) while the
indexed query carries the fresh post-cancel token (still live at the end
of the fetch) — the cancel affects only the query not yet issued. -/
theorem C7_token_at_issue_time (P : Nat)
    (kernelFor : NotebookTextModel → Option INotebookKernel)
    (parent : INotebookVariableElement) (s : CancellationState) (k : INotebookKernel)
    (hInv : CancellationInv s)
    (hk : kernelFor parent.notebook = some k) (hprov : k.hasVariableProvider = true)
    (hnamed : parent.hasNamedChildren = true)
    (h0 : 0 < parent.indexedChildrenCount)
    (hle : parent.indexedChildrenCount ≤ P) :
    (getVariablesM P kernelFor true parent s).2.1.map (fun q => q.mode)
      = [QueryMode.named, QueryMode.indexed] ∧
    (getVariablesM P kernelFor true parent s).2.1.map (fun q => q.token)
      = [s.current, (cancel s).current] ∧
    s.current ≠ (cancel s).current ∧
    isRevoked (getVariablesM P kernelFor true parent s).2.2 s.current = true ∧
    isRevoked (getVariablesM P kernelFor true parent s).2.2 (cancel s).current
      = false := by
  obtain ⟨hmem, hlt, hbound⟩ := hInv
  have hnotbig : ¬ (P < parent.indexedChildrenCount) := by omega
  have hidxq : (getIndexedChildrenM P k parent (cancel s)).2.1
      = [{ uri := parent.notebook.uri, handle := some parent.extHostId,
           mode := QueryMode.indexed, startOffset := parent.indexStart.getD 0,
           token := (cancel s).current,
           elementsPulled := (consumeIndexedLoop P parent.notebook []
             (k.provideVariables parent.notebook.uri (some parent.extHostId)
               QueryMode.indexed (parent.indexStart.getD 0))).2 }] := by
    unfold getIndexedChildrenM
    rw [if_neg hnotbig, if_pos h0]
  have hidxs : (getIndexedChildrenM P k parent (cancel s)).2.2 = cancel s :=
    getIndexedChildrenM_state P k parent (cancel s)
  have hvarq : (getVariablesM P kernelFor true parent s).2.1
      = { uri := parent.notebook.uri, handle := some parent.extHostId,
          mode := QueryMode.named, startOffset := 0, token := s.current,
          elementsPulled := (k.provideVariables parent.notebook.uri
            (some parent.extHostId) QueryMode.named 0).length }
        :: (getIndexedChildrenM P k parent (cancel s)).2.1 := by
    unfold getVariablesM
    rw [hk]
    simp [hprov, hnamed, h0]
  have hvars : (getVariablesM P kernelFor true parent s).2.2
      = (getIndexedChildrenM P k parent (cancel s)).2.2 := by
    unfold getVariablesM
    rw [hk]
    simp [hprov, hnamed, h0]
  have hcur : (cancel s).current = s.nextId := rfl
  refine ⟨?_, ?_, ?_, ?_, ?_⟩
  · rw [hvarq, hidxq]
    rfl
  · rw [hvarq, hidxq]
    rfl
  · rw [hcur]
    omega
  · rw [hvars, hidxs]
    exact cancel_revokes_old s
  · rw [hvars, hidxs]
    exact cancel_current_not_revoked s ⟨hmem, hlt, hbound⟩

theorem C7_token_at_issue_time_witness :
    (getVariablesM 2 sampleKernelFor true smallParent CancellationState.initial).2.1.map
        (fun q => q.mode)
      = [QueryMode.named, QueryMode.indexed] ∧
    (getVariablesM 2 sampleKernelFor true smallParent CancellationState.initial).2.1.map
        (fun q => q.token)
      = [CancellationState.initial.current,
         (cancel CancellationState.initial).current] ∧
    CancellationState.initial.current ≠ (cancel CancellationState.initial).current ∧
    isRevoked (getVariablesM 2 sampleKernelFor true smallParent
        CancellationState.initial).2.2 CancellationState.initial.current = true ∧
    isRevoked (getVariablesM 2 sampleKernelFor true smallParent
        CancellationState.initial).2.2 (cancel CancellationState.initial).current
      = false :=
  C7_token_at_issue_time 2 sampleKernelFor smallParent CancellationState.initial
    sampleKernel
    ⟨List.not_mem_nil 0, Nat.one_pos, fun t ht => absurd ht (List.not_mem_nil t)⟩
    rfl (by decide) (by decide) (by decide) (by decide)

theorem mem_getIndexedChildrenM (P : Nat) (kernel : INotebookKernel)
    (parent : INotebookVariableElement) (s : CancellationState)
    (x : INotebookVariableElement)
    (hx : x ∈ (getIndexedChildrenM P kernel parent s).1) :
    (∃ a b, x = mkRangeNode parent a b) ∨
    (∃ v, x = createVariableElement v parent.notebook) := by
  unfold getIndexedChildrenM at hx
  by_cases h1 : P < parent.indexedChildrenCount
  · rw [if_pos h1] at hx
    exact Or.inl (mem_synthesizeRangesLoop P parent _ _ x hx)
  · rw [if_neg h1] at hx
    by_cases h2 : 0 < parent.indexedChildrenCount
    · rw [if_pos h2] at hx
      rcases mem_consumeIndexedLoop P parent.notebook _ [] x hx with h | h
      · exact absurd h (List.not_mem_nil x)
      · exact Or.inr h
    · rw [if_neg h2] at hx
      exact absurd hx (List.not_mem_nil x)

theorem mem_getRootVariablesM (kernelFor : NotebookTextModel → Option INotebookKernel)
    (notebook : NotebookTextModel) (s : CancellationState)
    (x : INotebookVariableElement)
    (hx : x ∈ (getRootVariablesM kernelFor notebook s).1) :
    ∃ v, x = createVariableElement v notebook := by
  unfold getRootVariablesM at hx
  cases hk : kernelFor notebook with
  | none =>
    rw [hk] at hx
    exact absurd hx (List.not_mem_nil x)
  | some k =>
    rw [hk] at hx
    dsimp only at hx
    by_cases hprov : k.hasVariableProvider = true
    · rw [if_pos hprov] at hx
      dsimp only at hx
      rcases List.mem_map.mp hx with ⟨v, hv, hveq⟩
      exact ⟨v, hveq.symm⟩
    · rw [if_neg hprov] at hx
      exact absurd hx (List.not_mem_nil x)

theorem mem_getVariablesM (P : Nat)
    (kernelFor : NotebookTextModel → Option INotebookKernel) (cancelMid : Bool)
    (pv : INotebookVariableElement) (s : CancellationState)
    (x : INotebookVariableElement)
    (hx : x ∈ (getVariablesM P kernelFor cancelMid pv s).1) :
    (∃ v, x = createVariableElement v pv.notebook) ∨
    (∃ a b, x = mkRangeNode pv a b) := by
  unfold getVariablesM at hx
  cases hk : kernelFor pv.notebook with
  | none =>
    rw [hk] at hx
    exact absurd hx (List.not_mem_nil x)
  | some k =>
    rw [hk] at hx
    dsimp only at hx
    by_cases hprov : k.hasVariableProvider = true
    · rw [if_pos hprov] at hx
      dsimp only at hx
      rcases List.mem_append.mp hx with hn | hi
      · by_cases hnamed : pv.hasNamedChildren = true
        · rw [if_pos hnamed] at hn
          dsimp only at hn
          rcases List.mem_map.mp hn with ⟨v, hv, hveq⟩
          exact Or.inl ⟨v, hveq.symm⟩
        · rw [if_neg hnamed] at hn
          exact absurd hn (List.not_mem_nil x)
      · by_cases hidx : 0 < pv.indexedChildrenCount
        · rw [if_pos hidx] at hi
          rcases mem_getIndexedChildrenM P k pv _ x hi with h | h
          · exact Or.inr h
          · exact Or.inl h
        · rw [if_neg hidx] at hi
          exact absurd hi (List.not_mem_nil x)
    · rw [if_neg hprov] at hx
      exact absurd hx (List.not_mem_nil x)

/-- C9: `indexStart` is present on a produced node exactly when it is a
synthesized range node: every node `getChildren` returns is either a
direct wrap of a provider result (`createVariableElement`, whose
`indexStart` is absent — `VariablesResult` has no such field) or a
synthesized range node (`mkRangeNode`, whose `indexStart` is the block
start). -/
theorem C9_indexStart_iff_range (P : Nat)
    (kernelFor : NotebookTextModel → Option INotebookKernel) (cancelMid : Bool)
    (element : NotebookElement) (s : CancellationState)
    (node : INotebookVariableElement)
    (hmem : node ∈ (getChildrenM P kernelFor cancelMid element s).1) :
    ((node.indexStart = none ∧
        ∃ v notebook, node = createVariableElement v notebook) ∨
     (∃ parentNode start stop, node = mkRangeNode parentNode start stop ∧
        node.indexStart = some start)) ∧
    ∀ (v : VariablesResult) (notebook : NotebookTextModel),
      (createVariableElement v notebook).indexStart = none := by
  refine ⟨?_, fun v notebook => rfl⟩
  cases element with
  | root notebook =>
    rcases mem_getRootVariablesM kernelFor notebook s node hmem with ⟨v, hveq⟩
    refine Or.inl ⟨?_, v, notebook, hveq⟩
    rw [hveq]
    rfl
  | variableNode pv =>
    rcases mem_getVariablesM P kernelFor cancelMid pv s node hmem with
      ⟨v, hveq⟩ | ⟨a, b, hveq⟩
    · refine Or.inl ⟨?_, v, pv.notebook, hveq⟩
      rw [hveq]
      rfl
    · refine Or.inr ⟨pv, a, b, hveq, ?_⟩
      rw [hveq]
      rfl

theorem C9_indexStart_iff_range_witness :
    (((mkRangeNode bigParent 0 2).indexStart = none ∧
        ∃ v notebook, mkRangeNode bigParent 0 2 = createVariableElement v notebook) ∨
     (∃ parentNode start stop,
        mkRangeNode bigParent 0 2 = mkRangeNode parentNode start stop ∧
        (mkRangeNode bigParent 0 2).indexStart = some start)) ∧
    ∀ (v : VariablesResult) (notebook : NotebookTextModel),
      (createVariableElement v notebook).indexStart = none :=
  C9_indexStart_iff_range 2 sampleKernelFor false
    (NotebookElement.variableNode bigParent) CancellationState.initial
    (mkRangeNode bigParent 0 2) (by decide)

/-- C10: every synthesized range node has
`0 < indexedChildrenCount ≤ P` and carries the parent's `extHostId`
unchanged; hence `hasChildren` is true for it, and expanding it always
takes the direct indexed-query branch: `getIndexedChildren` on a range
node issues exactly one query, in indexed mode, and produces only
provider-wrapped children (with `indexStart = none`, never further
range nodes) — subdivision terminates one level below the collection. -/
theorem C10_range_nodes_terminal (P : Nat) (kernel : INotebookKernel)
    (parent : INotebookVariableElement) (s : CancellationState)
    (hP : 0 < P) (hC : P < parent.indexedChildrenCount)
    (node : INotebookVariableElement)
    (hmem : node ∈ (getIndexedChildrenM P kernel parent s).1) :
    0 < node.indexedChildrenCount ∧
    node.indexedChildrenCount ≤ P ∧
    node.extHostId = parent.extHostId ∧
    hasChildren (NotebookElement.variableNode node) = true ∧
    ∀ (kernel2 : INotebookKernel) (s2 : CancellationState),
      (getIndexedChildrenM P kernel2 node s2).2.1.map (fun q => q.mode)
        = [QueryMode.indexed] ∧
      ∀ child ∈ (getIndexedChildrenM P kernel2 node s2).1,
        child.indexStart = none := by
  have hbranch : getIndexedChildrenM P kernel parent s
      = (synthesizeRanges P parent, [], s) := by
    unfold getIndexedChildrenM
    rw [if_pos hC]
  rw [hbranch] at hmem
  have hmem2 : node ∈ (List.range ((parent.indexedChildrenCount + P - 1) / P)).map
      (fun i => mkRangeNode parent (i * P)
        (min (i * P + P) parent.indexedChildrenCount)) := by
    have hmem3 : node ∈ synthesizeRanges P parent := hmem
    rwa [synthesizeRanges_eq P hP parent] at hmem3
  rcases List.mem_map.mp hmem2 with ⟨i, hirange, hieq⟩
  have hi : i < (parent.indexedChildrenCount + P - 1) / P := List.mem_range.mp hirange
  have hlt : i * P < parent.indexedChildrenCount :=
    mul_lt_of_lt_ceil P parent.indexedChildrenCount i hP hi
  have hieq2 : mkRangeNode parent (i * P)
      (min (i * P + P) parent.indexedChildrenCount) = node := hieq
  subst hieq2
  have hcount : (mkRangeNode parent (i * P)
        (min (i * P + P) parent.indexedChildrenCount)).indexedChildrenCount
      = min (i * P + P) parent.indexedChildrenCount - i * P := rfl
  refine ⟨?_, ?_, rfl, ?_, ?_⟩
  · rw [hcount]
    omega
  · rw [hcount]
    omega
  · show (false || decide (0 < (mkRangeNode parent (i * P)
        (min (i * P + P) parent.indexedChildrenCount)).indexedChildrenCount)) = true
    rw [hcount]
    simp only [Bool.false_or, decide_eq_true_eq]
    omega
  · intro kernel2 s2
    have hnotbig2 : ¬ (P < (mkRangeNode parent (i * P)
        (min (i * P + P) parent.indexedChildrenCount)).indexedChildrenCount) := by
      rw [hcount]
      omega
    have hpos2 : 0 < (mkRangeNode parent (i * P)
        (min (i * P + P) parent.indexedChildrenCount)).indexedChildrenCount := by
      rw [hcount]
      omega
    constructor
    · show (getIndexedChildrenM P kernel2 (mkRangeNode parent (i * P)
          (min (i * P + P) parent.indexedChildrenCount)) s2).2.1.map
        (fun q => q.mode) = [QueryMode.indexed]
      unfold getIndexedChildrenM
      rw [if_neg hnotbig2, if_pos hpos2]
      rfl
    · intro child hchild
      have hchild2 : child ∈ (getIndexedChildrenM P kernel2 (mkRangeNode parent (i * P)
          (min (i * P + P) parent.indexedChildrenCount)) s2).1 := hchild
      unfold getIndexedChildrenM at hchild2
      rw [if_neg hnotbig2, if_pos hpos2] at hchild2
      rcases mem_consumeIndexedLoop P (mkRangeNode parent (i * P)
          (min (i * P + P) parent.indexedChildrenCount)).notebook _ [] child hchild2
        with h | h
      · exact absurd h (List.not_mem_nil child)
      · rcases h with ⟨v, hveq⟩
        rw [hveq]
        rfl

theorem C10_range_nodes_terminal_witness :
    0 < (mkRangeNode bigParent 0 2).indexedChildrenCount ∧
    (mkRangeNode bigParent 0 2).indexedChildrenCount ≤ 2 ∧
    (mkRangeNode bigParent 0 2).extHostId = bigParent.extHostId ∧
    hasChildren (NotebookElement.variableNode (mkRangeNode bigParent 0 2)) = true ∧
    ∀ (kernel2 : INotebookKernel) (s2 : CancellationState),
      (getIndexedChildrenM 2 kernel2 (mkRangeNode bigParent 0 2) s2).2.1.map
          (fun q => q.mode)
        = [QueryMode.indexed] ∧
      ∀ child ∈ (getIndexedChildrenM 2 kernel2 (mkRangeNode bigParent 0 2) s2).1,
        child.indexStart = none :=
  C10_range_nodes_terminal 2 sampleKernel bigParent CancellationState.initial
    (by decide) (by decide) (mkRangeNode bigParent 0 2) (by decide)
